import Mathlib

set_option maxRecDepth 4000

/-!
Shallow embedding of `extract_article_metadata.py` (The New Atlantis article
metadata extractor).  Python strings are modeled as `String`, Python `None` /
missing dictionary entries as `Option`, and the exceptions the script can
raise as an explicit `Except` result.  Numbers appearing in JSON are modeled
as integers (no claim depends on floating point).  Character classes (`\s`,
`\d`, lowercasing) are modeled over ASCII, which covers every string the
claims and the repository's tests exercise.
-/

/-- Python `\s` (and `str.strip` / `int()` whitespace), ASCII range:
space, tab, newline, carriage return, vertical tab, form feed. -/
def isPySpace (c : Char) : Bool :=
  c = ' ' || c = '\t' || c = '\n' || c = '\r' || c = '\x0b' || c = '\x0c'

/-- Python `str.strip()`: remove leading and trailing whitespace. -/
def pyStrip (s : String) : String :=
  (((s.data.dropWhile isPySpace).reverse.dropWhile isPySpace).reverse).asString

/-- Python `str.lower()` (ASCII). -/
def pyLower (s : String) : String :=
  (s.data.map Char.toLower).asString

/-- Python `re.sub(r"\s+", " ", ·)` on the character list: every maximal
run of whitespace characters is replaced by a single space.  The boolean
flag records whether the current position is inside a whitespace run whose
single replacement space has already been emitted. -/
def collapseGo : Bool → List Char → List Char
  | _, [] => []
  | inRun, c :: rest =>
    if isPySpace c then
      if inRun then collapseGo true rest
      else ' ' :: collapseGo true rest
    else c :: collapseGo false rest

/-- Python `re.sub(r"\s+", " ", ·)` over a whole character list. -/
def collapseWs (l : List Char) : List Char :=
  collapseGo false l

/-- String-level version of `collapseWs` (Python `re.sub(r"\s+", " ", s)`). -/
def collapseStr (s : String) : String :=
  (collapseWs s.data).asString

/-- Detects two consecutive whitespace characters anywhere in the list. -/
def hasWsRun : List Char → Bool
  | a :: b :: rest => (isPySpace a && isPySpace b) || hasWsRun (b :: rest)
  | _ => false

/-- Python `str.isdigit()` (ASCII): nonempty and all characters are digits. -/
def pyIsDigit (s : String) : Bool :=
  !s.data.isEmpty && s.data.all Char.isDigit

/-- Digit-run parser for Python `int()`: digits with single underscores
allowed between digits (`int("1_000") = 1000`). -/
def pyDigitsGo : Nat → List Char → Option Nat
  | acc, [] => some acc
  | _, ['_'] => none
  | acc, '_' :: c :: rest =>
    if c.isDigit then pyDigitsGo (acc * 10 + (c.toNat - 48)) rest else none
  | acc, c :: rest =>
    if c.isDigit then pyDigitsGo (acc * 10 + (c.toNat - 48)) rest else none

/-- Nonempty digit run (first character must be a digit). -/
def pyDigits : List Char → Option Nat
  | [] => none
  | c :: rest => if c.isDigit then pyDigitsGo (c.toNat - 48) rest else none

/-- Python `int(s)` on a string: optional surrounding whitespace, optional
sign, then digits; `none` models a raised `ValueError`. -/
def pyInt (s : String) : Option Int :=
  match ((s.data.dropWhile isPySpace).reverse.dropWhile isPySpace).reverse with
  | '+' :: rest => (pyDigits rest).map Int.ofNat
  | '-' :: rest => (pyDigits rest).map (fun n => -(Int.ofNat n))
  | rest => (pyDigits rest).map Int.ofNat

/-- A Python value that can be passed as the `year` argument of
`infer_edition_number`: `None`, an `int`, or a `str`. -/
inductive PyVal where
  | none
  | int (n : Int)
  | str (s : String)
deriving DecidableEq

/-- Python truthiness of a `PyVal` (`not year` in the source). -/
def pyTruthy : PyVal → Bool
  | .none => false
  | .int n => n != 0
  | .str s => s != ""

/-- Python `int(year)` under the source's `try/except (ValueError, TypeError)`:
`none` means the conversion failed (the exception is caught). -/
def pyIntOfVal : PyVal → Option Int
  | .none => Option.none
  | .int n => some n
  | .str s => pyInt s

/-- The `season_offset` dictionary lookup of `infer_edition_number`. -/
def seasonOffset (s : String) : Option Int :=
  if s = "winter" then some 0
  else if s = "spring" then some 1
  else if s = "summer" then some 2
  else if s = "fall" then some 3
  else if s = "autumn" then some 3
  else Option.none

/-- `infer_edition_number(season, year)` from `extract_article_metadata.py`:
returns `none` when `not season or not year`, when `int(year)` fails
(caught `ValueError`/`TypeError`), or when the lowered season is not in the
offset dictionary; otherwise `79 + (year - 2025) * 4 + offset`. -/
def infer_edition_number (season : Option String) (year : PyVal) : Option Int :=
  match season with
  | Option.none => Option.none
  | some s =>
    if s = "" ∨ pyTruthy year = false then Option.none
    else
      match pyIntOfVal year with
      | Option.none => Option.none
      | some y =>
        match seasonOffset (pyLower s) with
        | Option.none => Option.none
        | some off =>
          let base_year : Int := 2025
          let base_winter_number : Int := 79
          let year_diff := y - base_year
          let year_base_number := base_winter_number + year_diff * 4
          some (year_base_number + off)

/-- JSON values as produced by `json.loads` (numbers modeled as integers). -/
inductive Json where
  | null
  | bool (b : Bool)
  | num (n : Int)
  | str (s : String)
  | arr (xs : List Json)
  | obj (fields : List (String × Json))

/-- Python truthiness of a JSON value. -/
def Json.truthy : Json → Bool
  | .null => false
  | .bool b => b
  | .num n => n != 0
  | .str s => s != ""
  | .arr xs => !xs.isEmpty
  | .obj fs => !fs.isEmpty

/-- Association-list lookup for JSON object fields (`dict.get`). -/
def lookupField : List (String × Json) → String → Option Json
  | [], _ => Option.none
  | (k, v) :: rest, key => if k = key then some v else lookupField rest key

/-- Python `data.get(key)`: `none` both when the receiver is not a dict
(call sites guard with `isinstance`) and when the key is absent. -/
def Json.get? (j : Json) (k : String) : Option Json :=
  match j with
  | .obj fs => lookupField fs k
  | _ => Option.none

/-- Python `isinstance(data, dict)`. -/
def Json.isObj : Json → Bool
  | .obj _ => true
  | _ => false

/-- Python `data.get("@type") == "Article"`: true exactly when the value is
the JSON string `"Article"`. -/
def isArticleVal : Option Json → Bool
  | some (.str s) => s == "Article"
  | _ => false

/-- The exceptions `extract_metadata` can raise internally.  The source's
`except (json.JSONDecodeError, KeyError)` catches only the first two. -/
inductive PyExc where
  | jsonDecodeError
  | keyError
  | typeError
  | attributeError
  | valueError
deriving DecidableEq

/-- Whether the JSON-LD loop's `except` clause catches the exception. -/
def PyExc.caught : PyExc → Bool
  | .jsonDecodeError => true
  | .keyError => true
  | _ => false

/-- One `<script type="application/ld+json">` element, seen through
`script.string` and `json.loads`: `noString` is an empty element
(`script.string is None`, so `json.loads(None)` raises `TypeError`),
`malformed` is a string `json.loads` rejects (`JSONDecodeError`), and
`parsed` carries the decoded value. -/
inductive ScriptData where
  | noString
  | malformed
  | parsed (j : Json)

/-- The metadata dictionary built by `extract_metadata`.  A `none` field is
an absent key; `date_published` keeps the raw JSON value, as the source
stores it verbatim. -/
structure Metadata where
  title : Option String := Option.none
  authors : Option (List String) := Option.none
  date_published : Option Json := Option.none
  issue_number : Option String := Option.none
  issue_season : Option String := Option.none
  publication : Option String := Option.none

/-- One element of the authors list comprehension: the `if author.get("name")`
filter, then `re.sub(r"\s+", " ", author.get("name", "").strip())`.
A non-dict element or a truthy non-string name raises `AttributeError`. -/
def authorEntry : Json → Except PyExc (Option String)
  | .obj fs =>
    match lookupField fs "name" with
    | Option.none => .ok Option.none
    | some v =>
      if v.truthy then
        match v with
        | .str s => .ok (some (collapseStr (pyStrip s)))
        | _ => .error .attributeError
      else .ok Option.none
  | _ => .error .attributeError

/-- The list comprehension over the authors, in order, propagating the first
exception and dropping filtered-out entries. -/
def mapAuthors : List Json → Except PyExc (List String)
  | [] => .ok []
  | a :: rest =>
    match authorEntry a with
    | .error e => .error e
    | .ok Option.none => mapAuthors rest
    | .ok (some s) =>
      match mapAuthors rest with
      | .error e => .error e
      | .ok l => .ok (s :: l)

/-- The author-handling block of the JSON-LD branch: wrap a single dict into
a list, test truthiness, then run the comprehension.  `ok none` means the
`metadata["authors"]` assignment does not happen; iterating a truthy
non-list raises (`str` iterates to characters whose `.get` raises
`AttributeError`; `int`/`bool` are not iterable, `TypeError`). -/
def authorsStep : Json → Except PyExc (Option (List String))
  | .null => .ok Option.none
  | .bool b => if b then .error .typeError else .ok Option.none
  | .num n => if n = 0 then .ok Option.none else .error .typeError
  | .str s => if s = "" then .ok Option.none else .error .attributeError
  | .arr xs =>
    if xs.isEmpty then .ok Option.none
    else
      match mapAuthors xs with
      | .error e => .error e
      | .ok l => .ok (some l)
  | .obj fs =>
    match mapAuthors [.obj fs] with
    | .error e => .error e
    | .ok l => .ok (some l)

/-- `data.get("headline", "").strip()`: a non-string headline value raises
`AttributeError` (no `.strip` attribute). -/
def headlineStep (j : Json) : Except PyExc String :=
  match (j.get? "headline").getD (.str "") with
  | .str s => .ok (pyStrip s)
  | _ => .error .attributeError

/-- The conditional `metadata["authors"]` assignment: it happens only when
the author value was truthy (the comprehension ran). -/
def authorsAssign (auth : Option (List String)) (md : Metadata) : Metadata :=
  match auth with
  | some names => { md with authors := some names }
  | Option.none => md

/-- The `datePublished` block: `metadata["date_published"]` is assigned the
raw value only when it is truthy. -/
def dateAssign (j : Json) (md : Metadata) : Metadata :=
  if ((j.get? "datePublished").getD (.str "")).truthy then
    { md with date_published := some ((j.get? "datePublished").getD (.str "")) }
  else md

/-- The body of one iteration of the JSON-LD loop.  `ok (some md)` means the
script was an Article and the loop breaks with updated metadata; `ok none`
means the loop continues; `error` is a raised exception (possibly caught by
the caller). -/
def processScript (md : Metadata) (sc : ScriptData) : Except PyExc (Option Metadata) :=
  match sc with
  | .noString => .error .typeError
  | .malformed => .error .jsonDecodeError
  | .parsed j =>
    if j.isObj && isArticleVal (j.get? "@type") then
      match headlineStep j with
      | .error e => .error e
      | .ok t =>
        match authorsStep ((j.get? "author").getD (.arr [])) with
        | .error e => .error e
        | .ok auth => .ok (some (dateAssign j (authorsAssign auth { md with title := some t })))
    else .ok Option.none

/-- The `for script in json_ld_scripts` loop with its
`except (json.JSONDecodeError, KeyError): continue` clause. -/
def jsonLdLoop (md : Metadata) : List ScriptData → Except PyExc Metadata
  | [] => .ok md
  | sc :: rest =>
    match processScript md sc with
    | .ok (some md') => .ok md'
    | .ok Option.none => jsonLdLoop md rest
    | .error e => if e.caught then jsonLdLoop md rest else .error e

/-- Does `re.search(r"No\.\s*\d+")` match at the head of the list
(case-sensitive `No.`, then optional whitespace, then a digit)? -/
def matchNoNumAt : List Char → Bool
  | 'N' :: 'o' :: '.' :: rest =>
    match rest.dropWhile isPySpace with
    | c :: _ => c.isDigit
    | [] => false
  | _ => false

/-- Does `re.search(r"No\.\s*\d+")` succeed anywhere in the list?  This is
the string filter of `soup.find(string=re.compile(r"No\.\s*\d+"))`. -/
def containsNoNum : List Char → Bool
  | [] => false
  | c :: rest => matchNoNumAt (c :: rest) || containsNoNum rest

/-- Match of `re.search(r"No\.\s*(\d+)\s*\(([^)]+)\)", ·)` anchored at the
head of the list, returning (group 1, group 2).  Greedy `\d+` and `[^)]+`
are deterministic here since no backtracking alternative can succeed. -/
def matchNoParenAt : List Char → Option (String × String)
  | 'N' :: 'o' :: '.' :: rest =>
    if (rest.dropWhile isPySpace).takeWhile Char.isDigit = [] then Option.none
    else
      match ((rest.dropWhile isPySpace).dropWhile Char.isDigit).dropWhile isPySpace with
      | '(' :: r3 =>
        if r3.takeWhile (fun c => c ≠ ')') = [] then Option.none
        else
          match r3.dropWhile (fun c => c ≠ ')') with
          | ')' :: _ =>
            some (((rest.dropWhile isPySpace).takeWhile Char.isDigit).asString,
                  (r3.takeWhile (fun c => c ≠ ')')).asString)
          | _ => Option.none
      | _ => Option.none
  | _ => Option.none

/-- Leftmost-match search: try the matcher at each start position from the
left, as `re.search` does. -/
def searchAt (m : List Char → Option (String × String)) : List Char → Option (String × String)
  | [] => m []
  | c :: rest =>
    match m (c :: rest) with
    | some r => some r
    | Option.none => searchAt m rest

/-- `re.search(r"No\.\s*(\d+)\s*\(([^)]+)\)", s)` over a whole string. -/
def searchNoParen (l : List Char) : Option (String × String) :=
  searchAt matchNoParenAt l

/-- Case-insensitive literal prefix match: if the head of `l` spells `w`
(lowercased), return the matched characters in their original case and the
remainder. -/
def ciPrefixMatch : List Char → List Char → Option (List Char × List Char)
  | [], l => some ([], l)
  | _ :: _, [] => Option.none
  | a :: ws, c :: cs =>
    if c.toLower = a then
      match ciPrefixMatch ws cs with
      | some (m, r) => some (c :: m, r)
      | Option.none => Option.none
    else Option.none

/-- The season alternation `(Winter|Spring|Summer|Fall|Autumn)` with
`re.IGNORECASE`, tried in the regex's left-to-right order. -/
def seasonWordAt (l : List Char) : Option (List Char × List Char) :=
  match ciPrefixMatch "winter".data l with
  | some r => some r
  | Option.none =>
    match ciPrefixMatch "spring".data l with
    | some r => some r
    | Option.none =>
      match ciPrefixMatch "summer".data l with
      | some r => some r
      | Option.none =>
        match ciPrefixMatch "fall".data l with
        | some r => some r
        | Option.none => ciPrefixMatch "autumn".data l

/-- Exactly four digit characters at the head (`\d{4}`); anything may
follow. -/
def take4Digits : List Char → Option (List Char × List Char)
  | a :: b :: c :: d :: rest =>
    if a.isDigit && b.isDigit && c.isDigit && d.isDigit then
      some ([a, b, c, d], rest)
    else Option.none
  | _ => Option.none

/-- Match of `(Winter|Spring|Summer|Fall|Autumn)\s+(\d{4})` (IGNORECASE)
anchored at the head, returning (group 1, group 2). -/
def matchP1At (l : List Char) : Option (String × String) :=
  match seasonWordAt l with
  | some (w, r1) =>
    match r1 with
    | c :: _ =>
      if isPySpace c then
        match take4Digits (r1.dropWhile isPySpace) with
        | some (ds, _) => some (w.asString, ds.asString)
        | Option.none => Option.none
      else Option.none
    | [] => Option.none
  | Option.none => Option.none

/-- Match of `(\d{4})\s+(Winter|Spring|Summer|Fall|Autumn)` (IGNORECASE)
anchored at the head, returning (group 1, group 2). -/
def matchP2At (l : List Char) : Option (String × String) :=
  match take4Digits l with
  | some (ds, r1) =>
    match r1 with
    | c :: _ =>
      if isPySpace c then
        match seasonWordAt (r1.dropWhile isPySpace) with
        | some (w, _) => some (ds.asString, w.asString)
        | Option.none => Option.none
      else Option.none
    | [] => Option.none
  | Option.none => Option.none

/-- `re.search` of season pattern 1 over a whole string. -/
def searchP1 (l : List Char) : Option (String × String) :=
  searchAt matchP1At l

/-- `re.search` of season pattern 2 over a whole string. -/
def searchP2 (l : List Char) : Option (String × String) :=
  searchAt matchP2At l

/-- The document as `extract_metadata` observes it through BeautifulSoup:
the JSON-LD script elements in order, the text of the first `h1` element,
the text of the first `title` element, the text of the first element whose
class matches `author|byline` (case-insensitive), and the text nodes of the
document in order (searched by `soup.find(string=...)`). -/
structure Doc where
  scripts : List ScriptData
  h1 : Option String
  titleTag : Option String
  byline : Option String
  strings : List String

/-- `re.sub(r"^(by|author:?)\s*", "", ·, flags=re.I)` on the character
list: the alternation tries `by` first, then `author` with an optional
colon, each followed by consumed whitespace; no word boundary is
required. -/
def stripPrefixChars (l : List Char) : List Char :=
  match l with
  | b :: y :: rest =>
    if b.toLower = 'b' ∧ y.toLower = 'y' then rest.dropWhile isPySpace
    else
      match ciPrefixMatch "author".data l with
      | some (_, r) =>
        (match r with
         | ':' :: r2 => r2.dropWhile isPySpace
         | _ => r.dropWhile isPySpace)
      | Option.none => l
  | _ =>
    match ciPrefixMatch "author".data l with
    | some (_, r) =>
      (match r with
       | ':' :: r2 => r2.dropWhile isPySpace
       | _ => r.dropWhile isPySpace)
    | Option.none => l

/-- String-level byline prefix stripping. -/
def stripPrefixStr (s : String) : String :=
  (stripPrefixChars s.data).asString

/-- Title fallback: `if not metadata.get("title"):` take the first `h1`
element, else the `title` element, and strip its text. -/
def step_title (doc : Doc) (md : Metadata) : Metadata :=
  if md.title.getD "" = "" then
    match doc.h1.orElse (fun _ => doc.titleTag) with
    | some t => { md with title := some (pyStrip t) }
    | Option.none => md
  else md

/-- Byline fallback: `if not metadata.get("authors"):` take the byline
element's text, strip it, remove the `by`/`author:` prefix, collapse
whitespace, and store it as the single author. -/
def step_authors (doc : Doc) (md : Metadata) : Metadata :=
  if md.authors.getD [] = [] then
    match doc.byline with
    | some b => { md with authors := some [collapseStr (stripPrefixStr (pyStrip b))] }
    | Option.none => md
  else md

/-- Explicit issue extraction: find the first text node matching
`No\.\s*\d+`, then require the full `No\.\s*(\d+)\s*\(([^)]+)\)` pattern in
that same node. -/
def step_issue_explicit (doc : Doc) (md : Metadata) : Metadata :=
  match doc.strings.find? (fun s => containsNoNum s.data) with
  | some s =>
    match searchNoParen s.data with
    | some (digits, inside) =>
      { md with issue_number := some digits, issue_season := some inside }
    | Option.none => md
  | Option.none => md

/-- The tail of the season-pattern loop body once the groups are assigned:
`int(year)` (a failure would raise an uncaught `ValueError`), the call to
`infer_edition_number`, and the truthiness-guarded recording of the result
(`if inferred_number:` drops both `None` and `0`). -/
def seasonInferBody (md : Metadata) (season year : String) : Except PyExc Metadata :=
  match pyInt year with
  | Option.none => .error .valueError
  | some yn =>
    match infer_edition_number (some season) (.int yn) with
    | some n =>
      if n ≠ 0 then
        .ok { md with issue_number := some (toString n),
                      issue_season := some (season ++ " " ++ year) }
      else .ok md
    | Option.none => .ok md

/-- One iteration of the `for pattern in season_patterns` loop.  `some r`
means the loop breaks with result `r` (a node matched the pattern); `none`
means the next pattern is tried.  The `match.group(1).isdigit()` test
assigns the groups to season and year in the right order. -/
def tryPattern (doc : Doc) (md : Metadata)
    (search : List Char → Option (String × String)) : Option (Except PyExc Metadata) :=
  match doc.strings.find? (fun s => (search s.data).isSome) with
  | some s =>
    match search s.data with
    | some (g1, g2) =>
      if pyIsDigit g1 then some (seasonInferBody md g2 g1)
      else some (seasonInferBody md g1 g2)
    | Option.none => Option.none
  | Option.none => Option.none

/-- Season+year fallback: `if not metadata.get("issue_number"):` try the two
season patterns in order; the loop body breaks after the first node whose
pattern matches, whether or not the inferred number is recorded. -/
def step_issue_fallback (doc : Doc) (md : Metadata) : Except PyExc Metadata :=
  if md.issue_number.getD "" = "" then
    match tryPattern doc md searchP1 with
    | some r => r
    | Option.none =>
      match tryPattern doc md searchP2 with
      | some r => r
      | Option.none => .ok md
  else .ok md

/-- `extract_metadata(html_content)`: the JSON-LD loop, the HTML fallbacks,
issue extraction, then the unconditional publication assignment.  An
`error` result is an uncaught exception escaping the function. -/
def extract_metadata (doc : Doc) : Except PyExc Metadata :=
  match jsonLdLoop {} doc.scripts with
  | .error e => .error e
  | .ok md0 =>
    match step_issue_fallback doc (step_issue_explicit doc (step_authors doc (step_title doc md0))) with
    | .error e => .error e
    | .ok md1 => .ok { md1 with publication := some "The New Atlantis" }

/-- Python `"\n".join(lines)`. -/
def joinWith (sep : String) : List String → String
  | [] => ""
  | [s] => s
  | s :: rest => s ++ sep ++ joinWith sep rest

/-- The `yaml_lines` list built by `format_markdown_header`. -/
def yamlLines (metadata : Metadata) (creation_date : String) : List String :=
  let title := metadata.title.getD "Unknown Title"
  let authors := metadata.authors.getD ["Unknown Author"]
  let publication := metadata.publication.getD "The New Atlantis"
  let periodical_edition :=
    if metadata.issue_number.getD "" != "" && metadata.issue_season.getD "" != "" then
      "No. " ++ metadata.issue_number.getD "" ++ " (" ++ metadata.issue_season.getD "" ++ ")"
    else ""
  ["---", "title: " ++ title, "author:"]
    ++ authors.map (fun a => "  - " ++ a)
    ++ ["format: journal article", "creation-date: " ++ creation_date,
        "publication: " ++ publication]
    ++ (if periodical_edition != "" then ["periodical-edition: " ++ periodical_edition] else [])
    ++ ["---", "", "## Notes"]

/-- `format_markdown_header(metadata, creation_date)` with an explicit
creation date (the `creation_date is None` branch reads the current clock,
a side effect outside this model). -/
def format_markdown_header (metadata : Metadata) (creation_date : String) : String :=
  joinWith "\n" (yamlLines metadata creation_date)

/-- Concrete document: a single empty JSON-LD script element. -/
def c2Doc : Doc := ⟨[.noString], Option.none, Option.none, Option.none, []⟩

/-- Concrete document whose first `No.\s*\d+` text node lacks the full
parenthesized pattern while a later node carries it. -/
def c3CtrDoc : Doc := ⟨[], Option.none, Option.none, Option.none, ["No. 5", "No. 100 (Winter 2025)"]⟩

/-- Concrete document whose first `No.\s*\d+` text node carries the full
explicit pattern, with a different bare season+year mention elsewhere. -/
def c3WitDoc : Doc := ⟨[], Option.none, Option.none, Option.none, ["No. 100 (Winter 2025)", "Spring 2024"]⟩

/-- Metadata extracted from `c3WitDoc`. -/
def c3WitMd : Metadata :=
  { issue_number := some "100", issue_season := some "Winter 2025",
    publication := some "The New Atlantis" }

/-- A minimal document with no content at all. -/
def c6WitDoc : Doc := ⟨[], Option.none, Option.none, Option.none, []⟩

/-- Metadata extracted from `c6WitDoc`. -/
def c6WitMd : Metadata := { publication := some "The New Atlantis" }

/-- Concrete document whose byline text fuses the letters `By` to the
author's name. -/
def byronDoc : Doc := ⟨[], some "T", Option.none, some "Byron Smith", []⟩

/-- Metadata extracted from `byronDoc`. -/
def byronMd : Metadata :=
  { title := some "T", authors := some ["ron Smith"],
    publication := some "The New Atlantis" }

/-- The spec's scenario document: a structured-data Article with headline
"The Tyranny of Now" and one author "Nicholas  Carr" (double space). -/
def scenarioDoc : Doc :=
  ⟨[.parsed (.obj [("@type", Json.str "Article"),
                   ("headline", Json.str "The Tyranny of Now"),
                   ("author", Json.arr [Json.obj [("name", Json.str "Nicholas  Carr")]]),
                   ("datePublished", Json.str "2025-01-15")])],
   Option.none, Option.none, Option.none, []⟩

/-- Metadata extracted from `scenarioDoc`. -/
def scenarioMd : Metadata :=
  { title := some "The Tyranny of Now", authors := some ["Nicholas Carr"],
    date_published := some (Json.str "2025-01-15"),
    publication := some "The New Atlantis" }

/-- A fully populated metadata mapping, used to exercise the fixed field
order of the formatter on a non-empty input. -/
def c4WitMd : Metadata :=
  { title := some "T", authors := some ["A", "B"],
    issue_number := some "79", issue_season := some "Winter 2025",
    publication := some "The New Atlantis" }

theorem collapseGo_true_head (l : List Char) :
    collapseGo true l = [] ∨
      ∃ c t, collapseGo true l = c :: t ∧ isPySpace c = false := by
  induction l with
  | nil => exact Or.inl rfl
  | cons c rest ih =>
    by_cases hc : isPySpace c = true
    · simpa [collapseGo, hc] using ih
    · right
      exact ⟨c, collapseGo false rest, by simp [collapseGo, hc], by simpa using hc⟩

theorem collapseGo_no_run (b : Bool) (l : List Char) :
    hasWsRun (collapseGo b l) = false := by
  induction l generalizing b with
  | nil => simp [collapseGo, hasWsRun]
  | cons c rest ih =>
    by_cases hc : isPySpace c = true
    · cases b with
      | true => simpa [collapseGo, hc] using ih true
      | false =>
        rw [show collapseGo false (c :: rest) = ' ' :: collapseGo true rest by
          simp [collapseGo, hc]]
        rcases collapseGo_true_head rest with h | ⟨d, t, hdt, hd⟩
        · rw [h]
          simp [hasWsRun]
        · rw [hdt]
          simp only [hasWsRun, hd, Bool.and_false, Bool.false_or]
          rw [← hdt]
          exact ih true
    · have hcf : isPySpace c = false := by simpa using hc
      rw [show collapseGo b (c :: rest) = c :: collapseGo false rest by
        simp [collapseGo, hcf]]
      cases hX : collapseGo false rest with
      | nil => simp [hasWsRun]
      | cons d t =>
        simp only [hasWsRun, hcf, Bool.false_and, Bool.false_or]
        rw [← hX]
        exact ih false

theorem collapse_no_run (l : List Char) : hasWsRun (collapseWs l) = false :=
  collapseGo_no_run false l

theorem matchNoParenAt_digits_ne (l : List Char) (d i : String)
    (h : matchNoParenAt l = some (d, i)) : d ≠ "" := by
  unfold matchNoParenAt at h
  split at h
  · split at h
    · simp at h
    · rename_i hdig
      split at h
      · split at h
        · simp at h
        · split at h
          · simp only [Option.some.injEq, Prod.mk.injEq] at h
            intro he
            apply hdig
            have hd : d.data = [] := by rw [he]
            rw [← h.1] at hd
            exact hd
          · simp at h
      · simp at h
  · simp at h

theorem searchAt_some (m : List Char → Option (String × String)) (l : List Char)
    (x : String × String) (h : searchAt m l = some x) : ∃ l', m l' = some x := by
  induction l with
  | nil => exact ⟨[], h⟩
  | cons c rest ih =>
    unfold searchAt at h
    split at h
    · rename_i r hr
      cases h
      exact ⟨c :: rest, hr⟩
    · exact ih h

theorem searchNoParen_digits_ne (l : List Char) (d i : String)
    (h : searchNoParen l = some (d, i)) : d ≠ "" := by
  obtain ⟨l', hl'⟩ := searchAt_some _ _ _ h
  exact matchNoParenAt_digits_ne l' d i hl'

theorem step_title_authors (doc : Doc) (md : Metadata) :
    (step_title doc md).authors = md.authors := by
  unfold step_title
  split
  · split <;> rfl
  · rfl

theorem step_issue_explicit_authors (doc : Doc) (md : Metadata) :
    (step_issue_explicit doc md).authors = md.authors := by
  unfold step_issue_explicit
  split
  · split <;> rfl
  · rfl

theorem seasonInferBody_ok_authors (md md' : Metadata) (season year : String)
    (h : seasonInferBody md season year = .ok md') : md'.authors = md.authors := by
  unfold seasonInferBody at h
  split at h
  · simp at h
  · split at h
    · split at h
      · cases h
        rfl
      · cases h
        rfl
    · cases h
      rfl

theorem tryPattern_ok_authors (doc : Doc) (md md' : Metadata)
    (f : List Char → Option (String × String))
    (h : tryPattern doc md f = some (.ok md')) : md'.authors = md.authors := by
  unfold tryPattern at h
  split at h
  · split at h
    · split at h
      · simp only [Option.some.injEq] at h
        exact seasonInferBody_ok_authors md md' _ _ h
      · simp only [Option.some.injEq] at h
        exact seasonInferBody_ok_authors md md' _ _ h
    · simp at h
  · simp at h

theorem step_issue_fallback_authors (doc : Doc) (md md' : Metadata)
    (h : step_issue_fallback doc md = .ok md') : md'.authors = md.authors := by
  unfold step_issue_fallback at h
  split at h
  · split at h
    · rename_i r hr
      subst h
      exact tryPattern_ok_authors doc md md' searchP1 hr
    · split at h
      · rename_i r hr
        subst h
        exact tryPattern_ok_authors doc md md' searchP2 hr
      · cases h
        rfl
  · cases h
    rfl

theorem authorEntry_ok (a : Json) (s : String) (h : authorEntry a = .ok (some s)) :
    hasWsRun s.data = false := by
  unfold authorEntry at h
  split at h
  · split at h
    · simp at h
    · split at h
      · split at h
        · simp only [Except.ok.injEq, Option.some.injEq] at h
          subst h
          exact collapse_no_run _
        · simp at h
      · simp at h
  · simp at h

theorem mapAuthors_ok (xs : List Json) (l : List String) (h : mapAuthors xs = .ok l) :
    ∀ s ∈ l, hasWsRun s.data = false := by
  induction xs generalizing l with
  | nil =>
    simp only [mapAuthors, Except.ok.injEq] at h
    subst h
    simp
  | cons a rest ih =>
    unfold mapAuthors at h
    cases hae : authorEntry a with
    | error e => rw [hae] at h; simp at h
    | ok o =>
      cases o with
      | none => rw [hae] at h; exact ih _ h
      | some s0 =>
        rw [hae] at h
        cases hrest : mapAuthors rest with
        | error e => rw [hrest] at h; simp at h
        | ok l0 =>
          rw [hrest] at h
          simp only [Except.ok.injEq] at h
          subst h
          intro s hs
          cases List.mem_cons.mp hs with
          | inl h1 =>
            subst h1
            exact authorEntry_ok _ _ hae
          | inr h2 => exact ih _ hrest _ h2

theorem authorsStep_ok (v : Json) (names : List String)
    (h : authorsStep v = .ok (some names)) : ∀ s ∈ names, hasWsRun s.data = false := by
  cases v with
  | null => simp [authorsStep] at h
  | bool b =>
    simp only [authorsStep] at h
    split at h <;> simp at h
  | num n =>
    simp only [authorsStep] at h
    split at h <;> simp at h
  | str s =>
    simp only [authorsStep] at h
    split at h <;> simp at h
  | arr xs =>
    simp only [authorsStep] at h
    split at h
    · simp at h
    · cases hm : mapAuthors xs with
      | error e => rw [hm] at h; simp at h
      | ok l =>
        rw [hm] at h
        simp only [Except.ok.injEq, Option.some.injEq] at h
        subst h
        exact mapAuthors_ok _ _ hm
  | obj fs =>
    simp only [authorsStep] at h
    cases hm : mapAuthors [Json.obj fs] with
    | error e => rw [hm] at h; simp at h
    | ok l =>
      rw [hm] at h
      simp only [Except.ok.injEq, Option.some.injEq] at h
      subst h
      exact mapAuthors_ok _ _ hm

theorem processScript_ok (md md' : Metadata) (sc : ScriptData)
    (h : processScript md sc = .ok (some md'))
    (hmd : ∀ a ∈ md.authors.getD [], hasWsRun a.data = false) :
    ∀ a ∈ md'.authors.getD [], hasWsRun a.data = false := by
  cases sc with
  | noString => simp [processScript] at h
  | malformed => simp [processScript] at h
  | parsed j =>
    simp only [processScript] at h
    split at h
    · cases hh : headlineStep j with
      | error e => rw [hh] at h; simp at h
      | ok t =>
        rw [hh] at h
        cases ha : authorsStep ((j.get? "author").getD (.arr [])) with
        | error e => rw [ha] at h; simp at h
        | ok auth =>
          rw [ha] at h
          simp only [Except.ok.injEq, Option.some.injEq] at h
          subst h
          unfold dateAssign
          split
          · cases auth with
            | none => exact hmd
            | some names => exact authorsStep_ok _ _ ha
          · cases auth with
            | none => exact hmd
            | some names => exact authorsStep_ok _ _ ha
    · simp at h

theorem jsonLdLoop_ok (scripts : List ScriptData) (md md' : Metadata)
    (h : jsonLdLoop md scripts = .ok md')
    (hmd : ∀ a ∈ md.authors.getD [], hasWsRun a.data = false) :
    ∀ a ∈ md'.authors.getD [], hasWsRun a.data = false := by
  induction scripts generalizing md with
  | nil =>
    simp only [jsonLdLoop, Except.ok.injEq] at h
    subst h
    exact hmd
  | cons sc rest ih =>
    simp only [jsonLdLoop] at h
    split at h
    · rename_i md2 heq
      simp only [Except.ok.injEq] at h
      subst h
      exact processScript_ok md _ sc heq hmd
    · exact ih md h hmd
    · split at h
      · exact ih md h hmd
      · simp at h

theorem step_authors_ok (doc : Doc) (md : Metadata)
    (hmd : ∀ a ∈ md.authors.getD [], hasWsRun a.data = false) :
    ∀ a ∈ (step_authors doc md).authors.getD [], hasWsRun a.data = false := by
  unfold step_authors
  split
  · split
    · intro a ha
      simp only [Option.getD_some, List.mem_singleton] at ha
      subst ha
      exact collapse_no_run _
    · exact hmd
  · exact hmd

theorem infer_int_eq (s : String) (y o n : Int)
    (ho : seasonOffset (pyLower s) = some o)
    (h : infer_edition_number (some s) (PyVal.int y) = some n) :
    n = 79 + (y - 2025) * 4 + o := by
  simp only [infer_edition_number] at h
  split at h
  · simp at h
  · simp only [pyIntOfVal] at h
    rw [ho] at h
    simp only [Option.some.injEq] at h
    omega

/-- C1 (amended): for every recognized season string (case-insensitive) and
every nonzero integer year, `infer_edition_number` returns
`79 + (year - 2025) * 4 + offset`; in particular Winter 2025 gives 79,
Summer 2025 gives 81, and Fall 2024 gives 78. -/
theorem c1_edition_formula :
    (∀ (s : String) (y off : Int), y ≠ 0 → seasonOffset (pyLower s) = some off →
        infer_edition_number (some s) (PyVal.int y) = some (79 + (y - 2025) * 4 + off)) ∧
      infer_edition_number (some "Winter") (PyVal.int 2025) = some 79 ∧
      infer_edition_number (some "Summer") (PyVal.int 2025) = some 81 ∧
      infer_edition_number (some "Fall") (PyVal.int 2024) = some 78 := by
  refine ⟨?_, by decide, by decide, by decide⟩
  intro s y off hy ho
  have hs : ¬ s = "" := by
    intro he
    rw [he] at ho
    rw [show seasonOffset (pyLower "") = Option.none from rfl] at ho
    exact Option.noConfusion ho
  have ht : pyTruthy (PyVal.int y) = true := by
    simp only [pyTruthy, bne_iff_ne, ne_eq]
    exact hy
  simp only [infer_edition_number]
  rw [if_neg (by rw [ht]; simp [hs])]
  simp only [pyIntOfVal]
  rw [ho]

/-- C1 counterexample: at the integer year 0 the code returns `None`
(Python's falsy-value test `not year` fires), not the formula value. -/
theorem c1_counterexample :
    infer_edition_number (some "winter") (PyVal.int 0) = Option.none ∧
      ¬ infer_edition_number (some "winter") (PyVal.int 0) =
          some (79 + ((0 : Int) - 2025) * 4 + 0) := by
  constructor
  · decide
  · decide

/-- C1 witness: the amended formula applied at Autumn 2030 (offset 3). -/
theorem c1_edition_formula_witness :
    infer_edition_number (some "Autumn") (PyVal.int 2030) = some 102 :=
  (c1_edition_formula.1 "Autumn" 2030 3 (by decide) (by decide)).trans (by decide)

/-- C5: `infer_edition_number` returns `none` (and cannot raise, being a
total function into `Option`) when the season is empty, when the lowered
season is not in the offset dictionary (hence for every unrecognized season
in any letter case), when the year is missing, and when the year is a
string `int()` rejects. -/
theorem c5_infer_absent :
    (∀ y : PyVal, infer_edition_number (some "") y = Option.none) ∧
      (∀ (s : String) (y : PyVal), seasonOffset (pyLower s) = Option.none →
          infer_edition_number (some s) y = Option.none) ∧
      (∀ so : Option String, infer_edition_number so PyVal.none = Option.none) ∧
      (∀ (so : Option String) (t : String), pyInt t = Option.none →
          infer_edition_number so (PyVal.str t) = Option.none) := by
  refine ⟨?_, ?_, ?_, ?_⟩
  · intro y
    simp [infer_edition_number]
  · intro s y ho
    simp only [infer_edition_number]
    split
    · rfl
    · split
      · rfl
      · rw [ho]
  · intro so
    cases so with
    | none => rfl
    | some s =>
      simp [infer_edition_number, pyTruthy]
  · intro so t hint
    cases so with
    | none => rfl
    | some s =>
      simp only [infer_edition_number]
      split
      · rfl
      · simp only [pyIntOfVal]
        rw [hint]

/-- C5 witness: an unrecognized season and a non-numeric year string. -/
theorem c5_infer_absent_witness :
    infer_edition_number (some "Sprinter") (PyVal.int 2025) = Option.none ∧
      infer_edition_number (some "winter") (PyVal.str "two") = Option.none :=
  ⟨c5_infer_absent.2.1 "Sprinter" (PyVal.int 2025) (by decide),
   c5_infer_absent.2.2.2 (some "winter") "two" (by decide)⟩

/-- C7: `infer_edition_number` matches the calibration point Winter 2025 to
79 exactly, and on valid inputs it is strictly increasing in the linear
index `year * 4 + season_offset`, forward and backward in time. -/
theorem c7_calibrated_monotone :
    infer_edition_number (some "Winter") (PyVal.int 2025) = some 79 ∧
      ∀ (s₁ s₂ : String) (y₁ y₂ o₁ o₂ n₁ n₂ : Int),
        seasonOffset (pyLower s₁) = some o₁ →
        infer_edition_number (some s₁) (PyVal.int y₁) = some n₁ →
        seasonOffset (pyLower s₂) = some o₂ →
        infer_edition_number (some s₂) (PyVal.int y₂) = some n₂ →
        y₁ * 4 + o₁ < y₂ * 4 + o₂ → n₁ < n₂ := by
  refine ⟨by decide, ?_⟩
  intro s₁ s₂ y₁ y₂ o₁ o₂ n₁ n₂ ho₁ h₁ ho₂ h₂ hlt
  have e₁ := infer_int_eq s₁ y₁ o₁ n₁ ho₁ h₁
  have e₂ := infer_int_eq s₂ y₂ o₂ n₂ ho₂ h₂
  omega

/-- C7 witness: Fall 2024 (index 8099, issue 78) against Winter 2025
(index 8100, issue 79). -/
theorem c7_calibrated_monotone_witness :
    infer_edition_number (some "Fall") (PyVal.int 2024) = some 78 ∧ (78 : Int) < 79 :=
  ⟨by decide,
   c7_calibrated_monotone.2 "Fall" "Winter" 2024 2025 3 0 78 79 (by decide) (by decide)
     (by decide) (by decide) (by decide)⟩

theorem pe_str_ne_empty (a b : String) :
    ¬ "No. " ++ a ++ " (" ++ b ++ ")" = "" := by
  intro h
  have hd : ("No. " ++ a ++ " (" ++ b ++ ")").data = [] := by rw [h]
  simp only [String.data_append] at hd
  rcases List.append_eq_nil.mp hd with ⟨hd1, -⟩
  rcases List.append_eq_nil.mp hd1 with ⟨hd2, -⟩
  rcases List.append_eq_nil.mp hd2 with ⟨hd3, -⟩
  rcases List.append_eq_nil.mp hd3 with ⟨hd4, -⟩
  exact absurd hd4 (by decide)

/-- C4: formatting an empty metadata mapping with an explicit creation date
yields exactly the fixed-order block (opening and closing front-matter
fences, default title, a single default author bullet, the literal format
line, the given creation date, the fixed publication, no
periodical-edition line, a blank line, and the notes marker); and for
every input mapping and date the output is this same fixed-order skeleton:
the front-matter fence, the title line, the `author:` key, the author
bullet lines, the format line, the creation-date line, the publication
line, at most one periodical-edition line, the closing fence, a blank
line, and the notes marker — in this order. -/
theorem c4_format_empty :
    (∀ d : String,
        format_markdown_header {} d =
          joinWith "\n" ["---", "title: Unknown Title", "author:", "  - Unknown Author",
            "format: journal article", "creation-date: " ++ d,
            "publication: The New Atlantis", "---", "", "## Notes"]) ∧
      format_markdown_header {} "2025-06-19" =
        "---\ntitle: Unknown Title\nauthor:\n  - Unknown Author\nformat: journal article\ncreation-date: 2025-06-19\npublication: The New Atlantis\n---\n\n## Notes" ∧
      ∀ (md : Metadata) (d : String),
        ∃ (title pub : String) (bullets tail : List String),
          (∀ b ∈ bullets, ∃ a, b = "  - " ++ a) ∧
          (tail = [] ∨ ∃ pe, tail = ["periodical-edition: " ++ pe]) ∧
          format_markdown_header md d =
            joinWith "\n" (["---", "title: " ++ title, "author:"] ++ bullets
              ++ ["format: journal article", "creation-date: " ++ d,
                  "publication: " ++ pub]
              ++ tail ++ ["---", "", "## Notes"]) := by
  refine ⟨fun _ => rfl, rfl, ?_⟩
  intro md d
  refine ⟨md.title.getD "Unknown Title", md.publication.getD "The New Atlantis",
    (md.authors.getD ["Unknown Author"]).map (fun a => "  - " ++ a),
    (if (if md.issue_number.getD "" != "" && md.issue_season.getD "" != "" then
           "No. " ++ md.issue_number.getD "" ++ " (" ++ md.issue_season.getD "" ++ ")"
         else "") != "" then
       ["periodical-edition: " ++
         (if md.issue_number.getD "" != "" && md.issue_season.getD "" != "" then
            "No. " ++ md.issue_number.getD "" ++ " (" ++ md.issue_season.getD "" ++ ")"
          else "")]
     else []), ?_, ?_, rfl⟩
  · intro b hb
    rcases List.mem_map.mp hb with ⟨a, -, rfl⟩
    exact ⟨a, rfl⟩
  · by_cases hc : (md.issue_number.getD "" != "" && md.issue_season.getD "" != "") = true
    · right
      simp only [hc, if_true]
      rw [if_pos (by
        rw [bne_iff_ne]
        exact pe_str_ne_empty (md.issue_number.getD "") (md.issue_season.getD ""))]
      exact ⟨_, rfl⟩
    · left
      simp [hc]

/-- C4 witness: the skeleton conjunct applied to a fully populated mapping
at a concrete date. -/
theorem c4_format_empty_witness :
    ∃ (title pub : String) (bullets tail : List String),
      (∀ b ∈ bullets, ∃ a, b = "  - " ++ a) ∧
      (tail = [] ∨ ∃ pe, tail = ["periodical-edition: " ++ pe]) ∧
      format_markdown_header c4WitMd "2025-01-01" =
        joinWith "\n" (["---", "title: " ++ title, "author:"] ++ bullets
          ++ ["format: journal article", "creation-date: " ++ "2025-01-01",
              "publication: " ++ pub]
          ++ tail ++ ["---", "", "## Notes"]) :=
  c4_format_empty.2.2 c4WitMd "2025-01-01"

theorem step_issue_fallback_skip (doc : Doc) (md : Metadata)
    (h : ¬ md.issue_number.getD "" = "") : step_issue_fallback doc md = .ok md := by
  unfold step_issue_fallback
  rw [if_neg h]

/-- C2 (code bug): on a document whose only JSON-LD script element is empty
(`script.string is None`), `extract_metadata` raises an uncaught
`TypeError` from `json.loads(None)` instead of returning a mapping: the
`except` clause catches only `JSONDecodeError` and `KeyError`. -/
theorem c2_raises_on_empty_script :
    extract_metadata c2Doc = .error .typeError := rfl

/-- C3 counterexample: `c3CtrDoc` contains the explicit pattern
`No. 100 (Winter 2025)` (second text node), yet extraction records the
inferred number "79" from the season+year fallback, not "100" verbatim,
because the first text node matching `No.\s*\d+` ("No. 5") lacks the full
parenthesized pattern. -/
theorem c3_counterexample :
    searchNoParen (String.data "No. 100 (Winter 2025)") = some ("100", "Winter 2025") ∧
      extract_metadata c3CtrDoc =
        .ok { issue_number := some "79", issue_season := some "Winter 2025",
              publication := some "The New Atlantis" } ∧
      ¬ ("79" : String) = "100" :=
  ⟨rfl, rfl, by decide⟩

/-- C3 (amended): whenever the first text node matching `No.\s*\d+` itself
contains the full pattern `No. <digits> (<text>)`, the digits are recorded
verbatim as `issue_number`, the parenthesized text as `issue_season`, and
the season+year inference step is skipped. -/
theorem c3_explicit_authoritative (doc : Doc) (md : Metadata) (s digits inside : String)
    (hfind : doc.strings.find? (fun t => containsNoNum t.data) = some s)
    (hsearch : searchNoParen s.data = some (digits, inside))
    (hok : extract_metadata doc = .ok md) :
    md.issue_number = some digits ∧ md.issue_season = some inside := by
  have hne : ¬ digits = "" := searchNoParen_digits_ne s.data digits inside hsearch
  unfold extract_metadata at hok
  split at hok
  · simp at hok
  · rename_i md0 heq
    have hex : step_issue_explicit doc (step_authors doc (step_title doc md0)) =
        { step_authors doc (step_title doc md0) with
            issue_number := some digits, issue_season := some inside } := by
      simp only [step_issue_explicit, hfind, hsearch]
    rw [hex] at hok
    rw [step_issue_fallback_skip doc _ (by simpa using hne)] at hok
    simp only [Except.ok.injEq] at hok
    subst hok
    exact ⟨rfl, rfl⟩

/-- C3 witness: the amended statement applied to `c3WitDoc`, whose first
matching node is the full explicit pattern. -/
theorem c3_explicit_authoritative_witness :
    c3WitMd.issue_number = some "100" ∧ c3WitMd.issue_season = some "Winter 2025" :=
  c3_explicit_authoritative c3WitDoc c3WitMd "No. 100 (Winter 2025)" "100" "Winter 2025"
    rfl rfl rfl

/-- C6: every mapping `extract_metadata` returns has its publication field
equal to the literal "The New Atlantis", regardless of the document. -/
theorem c6_publication_fixed (doc : Doc) (md : Metadata)
    (h : extract_metadata doc = .ok md) : md.publication = some "The New Atlantis" := by
  unfold extract_metadata at h
  split at h
  · simp at h
  · split at h
    · simp at h
    · simp only [Except.ok.injEq] at h
      subst h
      rfl

/-- C6 witness: the publication field of the extraction of an empty
document. -/
theorem c6_publication_fixed_witness :
    c6WitMd.publication = some "The New Atlantis" :=
  c6_publication_fixed c6WitDoc c6WitMd rfl

/-- C8: every author name in a returned mapping — from structured data or
from a byline — contains no run of two or more consecutive whitespace
characters. -/
theorem c8_authors_collapsed (doc : Doc) (md : Metadata)
    (h : extract_metadata doc = .ok md) :
    ∀ a ∈ md.authors.getD [], hasWsRun a.data = false := by
  unfold extract_metadata at h
  split at h
  · simp at h
  · rename_i md0 heq
    split at h
    · simp at h
    · rename_i md1 heq2
      simp only [Except.ok.injEq] at h
      subst h
      have h0 : ∀ a ∈ md0.authors.getD [], hasWsRun a.data = false :=
        jsonLdLoop_ok doc.scripts {} md0 heq (by intro a ha; simp at ha)
      have h1 : ∀ a ∈ (step_title doc md0).authors.getD [], hasWsRun a.data = false := by
        rw [step_title_authors]
        exact h0
      have h2 := step_authors_ok doc (step_title doc md0) h1
      have h3 : ∀ a ∈ (step_issue_explicit doc (step_authors doc (step_title doc md0))).authors.getD [],
          hasWsRun a.data = false := by
        rw [step_issue_explicit_authors]
        exact h2
      have h4 := step_issue_fallback_authors doc _ md1 heq2
      intro a ha
      rw [show ({ md1 with publication := some "The New Atlantis" } : Metadata).authors
            = md1.authors from rfl, h4] at ha
      exact h3 a ha

/-- C8 witness: the spec scenario (author "Nicholas  Carr" in structured
data) yields the collapsed name "Nicholas Carr". -/
theorem c8_authors_collapsed_witness :
    hasWsRun (String.data "Nicholas Carr") = false :=
  c8_authors_collapsed scenarioDoc scenarioMd rfl "Nicholas Carr" (by decide)

/-- C9: the byline prefix stripping removes a leading case-insensitive
`by` even when fused to the rest of the name (no whitespace or word
boundary), and end to end a byline "Byron Smith" yields the single author
"ron Smith". -/
theorem c9_prefix_fused :
    (∀ (b y c : Char) (rest : List Char), b.toLower = 'b' → y.toLower = 'y' →
        isPySpace c = false →
        stripPrefixChars (b :: y :: c :: rest) = c :: rest) ∧
      (∀ (a₁ a₂ a₃ a₄ a₅ a₆ c : Char) (rest : List Char),
        a₁.toLower = 'a' → a₂.toLower = 'u' → a₃.toLower = 't' → a₄.toLower = 'h' →
        a₅.toLower = 'o' → a₆.toLower = 'r' → ¬ c = ':' → isPySpace c = false →
        stripPrefixChars (a₁ :: a₂ :: a₃ :: a₄ :: a₅ :: a₆ :: c :: rest) = c :: rest) ∧
      (∀ (a₁ a₂ a₃ a₄ a₅ a₆ c : Char) (rest : List Char),
        a₁.toLower = 'a' → a₂.toLower = 'u' → a₃.toLower = 't' → a₄.toLower = 'h' →
        a₅.toLower = 'o' → a₆.toLower = 'r' → isPySpace c = false →
        stripPrefixChars (a₁ :: a₂ :: a₃ :: a₄ :: a₅ :: a₆ :: ':' :: c :: rest) = c :: rest) ∧
      extract_metadata byronDoc = .ok byronMd := by
  refine ⟨?_, ?_, ?_, rfl⟩
  · intro b y c rest hb hy hc
    simp only [stripPrefixChars]
    rw [if_pos ⟨hb, hy⟩]
    rw [List.dropWhile_cons, if_neg (by simp [hc])]
  · intro a₁ a₂ a₃ a₄ a₅ a₆ c rest h1 h2 h3 h4 h5 h6 hcol hc
    simp only [stripPrefixChars]
    rw [if_neg (by rintro ⟨hb, -⟩; rw [h1] at hb; exact absurd hb (by decide))]
    simp only [ciPrefixMatch, h1, h2, h3, h4, h5, h6, if_true]
    split
    · rename_i r2 heq
      injection heq with e1 e2
      exact absurd e1 hcol
    · rw [List.dropWhile_cons, if_neg (by simp [hc])]
  · intro a₁ a₂ a₃ a₄ a₅ a₆ c rest h1 h2 h3 h4 h5 h6 hc
    simp only [stripPrefixChars]
    rw [if_neg (by rintro ⟨hb, -⟩; rw [h1] at hb; exact absurd hb (by decide))]
    simp only [ciPrefixMatch, h1, h2, h3, h4, h5, h6, if_true]
    rw [List.dropWhile_cons, if_neg (by simp [hc])]

/-- C9 witness: the stripping step applied to the fused bylines
"Byron Smith", "AUTHORized Person", and "Author:Jane". -/
theorem c9_prefix_fused_witness :
    stripPrefixChars (String.data "Byron Smith") = String.data "ron Smith" ∧
      stripPrefixChars (String.data "AUTHORized Person") = String.data "ized Person" ∧
      stripPrefixChars (String.data "Author:Jane") = String.data "Jane" :=
  ⟨c9_prefix_fused.1 'B' 'y' 'r' (String.data "on Smith") rfl rfl rfl,
   c9_prefix_fused.2.1 'A' 'U' 'T' 'H' 'O' 'R' 'i' (String.data "zed Person")
     rfl rfl rfl rfl rfl rfl (by decide) rfl,
   c9_prefix_fused.2.2.1 'A' 'u' 't' 'h' 'o' 'r' 'J' (String.data "ane")
     rfl rfl rfl rfl rfl rfl rfl⟩

